import Mathlib

/-!
Verification of the WiwilZ/MemoryManager repository against its
natural-language specification.

The development shallowly embeds three components of the repository:

* `Allocator` — the fixed-size object allocator of `src/Allocator.h`
  (the second variant in that file, whose `Chunk` constructor installs the
  provenance mask on slot 0; the claim C3 cites that constructor).
* `MemoryPool2` — the boundary-tag pool of `src/unnamed/part_002`
  (`BlockHeader` with a packed `meta` word, a `mask` word, chunk
  header/footer words, and a roving `curr_block_` cursor).
* `MemoryPool` — the boundary-tag pool of `src/MemoryPool.h`
  (bit-field header, explicit doubly-linked free list threaded through the
  payloads of free blocks, `Insert_block`/`Extract_block`/`Merge_next`/
  `Merge_prev`).

Both pools manipulate raw bytes: block headers, free-list links and footers
are stored inside the same byte buffers that hold user payloads, and several
claims hinge exactly on that aliasing.  The embedding therefore uses a flat
byte-addressed memory: `Mem` maps a `Nat` address to a byte, machine words
are read and written little-endian, eight bytes at a time, and `operator
new` is modelled by handing out fresh, well-separated base addresses from a
bump counter carried in the state.  Reads of never-written memory yield 0
(the traces used in the theorems only read initialised locations unless the
C++ itself reads uninitialised or freed memory, which is what some of the
bug witnesses demonstrate; each such place is commented).  All definitions
are executable, so concrete call traces evaluate by `decide`.
-/

set_option maxRecDepth 40000
set_option maxHeartbeats 2000000

/-! ### Byte-addressed memory -/

/-- A memory is an association list from byte address to byte value; the
most recent write is first.  Reads of unwritten addresses give 0. -/
def Mem : Type := List (Nat × Nat)

instance : DecidableEq Mem := by unfold Mem; infer_instance

/-- The empty memory. -/
def Mem.empty : Mem := []

/-- Read one byte. -/
def rb (m : Mem) (a : Nat) : Nat := ((List.lookup a m).getD 0) % 256

/-- Write one byte (truncated to 8 bits, as a store of a `std::byte`). -/
def wb (m : Mem) (a v : Nat) : Mem := (a, v % 256) :: m

/-- Write a 64-bit word at byte address `a`, little-endian, as the C++
stores of `size_t` / pointer values do on the target platform. -/
def wword (m : Mem) (a v : Nat) : Mem :=
  wb (wb (wb (wb (wb (wb (wb (wb m a v)
    (a+1) (v >>> 8)) (a+2) (v >>> 16)) (a+3) (v >>> 24)) (a+4) (v >>> 32))
    (a+5) (v >>> 40)) (a+6) (v >>> 48)) (a+7) (v >>> 56)

/-- Read the 64-bit little-endian word at byte address `a`. -/
def rword (m : Mem) (a : Nat) : Nat :=
  rb m a + rb m (a+1) * 256 + rb m (a+2) * 65536 + rb m (a+3) * 16777216 +
  rb m (a+4) * 4294967296 + rb m (a+5) * 1099511627776 +
  rb m (a+6) * 281474976710656 + rb m (a+7) * 72057594037927936

/-- `memcpy(dst, src, n)`, byte by byte, ascending addresses. -/
def copyBytes : Mem → Nat → Nat → Nat → Mem
  | m, _, _, 0 => m
  | m, d, s, n + 1 => copyBytes (wb m d (rb m s)) (d + 1) (s + 1) n

/-- The caller writing a byte string into a payload it owns (used to state
the payload-preservation property; not part of the allocator itself). -/
def storeBytes : Mem → Nat → List Nat → Mem
  | m, _, [] => m
  | m, a, b :: bs => storeBytes (wb m a b) (a + 1) bs

theorem rb_lt (m : Mem) (a : Nat) : rb m a < 256 := by
  unfold rb; exact Nat.mod_lt _ (by omega)

theorem rb_wb_self (m : Mem) (a v : Nat) : rb (wb m a v) a = v % 256 := by
  simp only [rb, wb, List.lookup_cons, beq_self_eq_true, Option.getD_some]
  omega

theorem rb_wb_ne (m : Mem) {a b : Nat} (v : Nat) (h : b ≠ a) :
    rb (wb m a v) b = rb m b := by
  have hb : (b == a) = false := beq_eq_false_iff_ne.mpr h
  simp only [rb, wb, List.lookup_cons, hb]

theorem rb_wword_0 (m : Mem) (a v : Nat) : rb (wword m a v) a = v % 256 := by
  unfold wword
  rw [rb_wb_ne _ _ (by omega), rb_wb_ne _ _ (by omega), rb_wb_ne _ _ (by omega),
      rb_wb_ne _ _ (by omega), rb_wb_ne _ _ (by omega), rb_wb_ne _ _ (by omega),
      rb_wb_ne _ _ (by omega), rb_wb_self]

theorem rb_wword_1 (m : Mem) (a v : Nat) :
    rb (wword m a v) (a+1) = (v >>> 8) % 256 := by
  unfold wword
  rw [rb_wb_ne _ _ (by omega), rb_wb_ne _ _ (by omega), rb_wb_ne _ _ (by omega),
      rb_wb_ne _ _ (by omega), rb_wb_ne _ _ (by omega), rb_wb_ne _ _ (by omega),
      rb_wb_self]

theorem rb_wword_2 (m : Mem) (a v : Nat) :
    rb (wword m a v) (a+2) = (v >>> 16) % 256 := by
  unfold wword
  rw [rb_wb_ne _ _ (by omega), rb_wb_ne _ _ (by omega), rb_wb_ne _ _ (by omega),
      rb_wb_ne _ _ (by omega), rb_wb_ne _ _ (by omega), rb_wb_self]

theorem rb_wword_3 (m : Mem) (a v : Nat) :
    rb (wword m a v) (a+3) = (v >>> 24) % 256 := by
  unfold wword
  rw [rb_wb_ne _ _ (by omega), rb_wb_ne _ _ (by omega), rb_wb_ne _ _ (by omega),
      rb_wb_ne _ _ (by omega), rb_wb_self]

theorem rb_wword_4 (m : Mem) (a v : Nat) :
    rb (wword m a v) (a+4) = (v >>> 32) % 256 := by
  unfold wword
  rw [rb_wb_ne _ _ (by omega), rb_wb_ne _ _ (by omega), rb_wb_ne _ _ (by omega),
      rb_wb_self]

theorem rb_wword_5 (m : Mem) (a v : Nat) :
    rb (wword m a v) (a+5) = (v >>> 40) % 256 := by
  unfold wword
  rw [rb_wb_ne _ _ (by omega), rb_wb_ne _ _ (by omega), rb_wb_self]

theorem rb_wword_6 (m : Mem) (a v : Nat) :
    rb (wword m a v) (a+6) = (v >>> 48) % 256 := by
  unfold wword
  rw [rb_wb_ne _ _ (by omega), rb_wb_self]

theorem rb_wword_7 (m : Mem) (a v : Nat) :
    rb (wword m a v) (a+7) = (v >>> 56) % 256 := by
  unfold wword
  rw [rb_wb_self]

theorem rb_wword_out (m : Mem) {a x : Nat} (v : Nat)
    (h : x < a ∨ a + 8 ≤ x) : rb (wword m a v) x = rb m x := by
  unfold wword
  rw [rb_wb_ne _ _ (by omega), rb_wb_ne _ _ (by omega), rb_wb_ne _ _ (by omega),
      rb_wb_ne _ _ (by omega), rb_wb_ne _ _ (by omega), rb_wb_ne _ _ (by omega),
      rb_wb_ne _ _ (by omega), rb_wb_ne _ _ (by omega)]

theorem rword_wword_self (m : Mem) (a v : Nat) :
    rword (wword m a v) a = v % 18446744073709551616 := by
  rw [rword, rb_wword_0, rb_wword_1, rb_wword_2, rb_wword_3, rb_wword_4,
      rb_wword_5, rb_wword_6, rb_wword_7]
  simp only [Nat.shiftRight_eq_div_pow]
  norm_num
  omega

theorem rword_wword_out (m : Mem) {a x : Nat} (v : Nat)
    (h : x + 8 ≤ a ∨ a + 8 ≤ x) : rword (wword m a v) x = rword m x := by
  rw [rword, rword, rb_wword_out _ _ (by omega), rb_wword_out _ _ (by omega),
      rb_wword_out _ _ (by omega), rb_wword_out _ _ (by omega),
      rb_wword_out _ _ (by omega), rb_wword_out _ _ (by omega),
      rb_wword_out _ _ (by omega), rb_wword_out _ _ (by omega)]

theorem rword_lt (m : Mem) (a : Nat) : rword m a < 18446744073709551616 := by
  have h0 := rb_lt m a
  have h1 := rb_lt m (a+1)
  have h2 := rb_lt m (a+2)
  have h3 := rb_lt m (a+3)
  have h4 := rb_lt m (a+4)
  have h5 := rb_lt m (a+5)
  have h6 := rb_lt m (a+6)
  have h7 := rb_lt m (a+7)
  unfold rword
  omega

/-! ### Bit-manipulation helpers shared by the pool embeddings -/

/-- Base-2 logarithm by structural recursion on a fuel argument, so that it
reduces inside the kernel; agrees with `Nat.log2` whenever `n < 2 ^ fuel`. -/
def log2fuel : Nat → Nat → Nat
  | 0, _ => 0
  | fuel + 1, n => if 2 ≤ n then log2fuel fuel (n / 2) + 1 else 0

theorem log2fuel_eq_log2 (fuel : Nat) :
    ∀ n : Nat, n < 2 ^ fuel → log2fuel fuel n = Nat.log2 n := by
  induction fuel with
  | zero =>
    intro n h
    have hn : n = 0 := by simpa using h
    subst hn
    simp [log2fuel, Nat.log2]
  | succ f ih =>
    intro n h
    rw [log2fuel, Nat.log2]
    by_cases h2 : 2 ≤ n
    · rw [if_pos h2, if_pos h2, ih (n / 2)]
      have : n < 2 ^ f * 2 := by rw [← Nat.pow_succ]; exact h
      omega
    · rw [if_neg h2, if_neg h2]

/-- `std::bit_width`: 0 for 0, otherwise one more than the index of the
highest set bit.  All sizes in this development fit 64 bits, hence fuel 64. -/
def bit_width (n : Nat) : Nat := if n = 0 then 0 else log2fuel 64 n + 1

/-- `std::bit_ceil`: the least power of two that is ≥ `n`. -/
def bit_ceil (n : Nat) : Nat := if n ≤ 1 then 1 else 2 ^ bit_width (n - 1)

theorem bit_width_eq {n : Nat} (h64 : n < 2 ^ 64) (h : n ≠ 0) :
    bit_width n = Nat.log2 n + 1 := by
  unfold bit_width
  rw [if_neg h, log2fuel_eq_log2 64 n h64]

theorem lt_two_pow_bit_width {n : Nat} (h64 : n < 2 ^ 64) (h : n ≠ 0) :
    n < 2 ^ bit_width n := by
  rw [bit_width_eq h64 h]
  exact (Nat.log2_lt h).mp (Nat.lt_succ_self _)

theorem bit_width_le {n k : Nat} (h64 : n < 2 ^ 64) (h : n < 2 ^ k) :
    bit_width n ≤ k := by
  unfold bit_width
  split
  · omega
  · next hn =>
    rw [log2fuel_eq_log2 64 n h64]
    have := (Nat.log2_lt hn).mpr h
    omega

/-- Packing a size into a meta word: for a 3-bit flag field,
`size <<< 3 ||| flags` is just `8 * size + flags`. -/
theorem shiftLeft3_lor (s f : Nat) (hf : f < 8) : s <<< 3 ||| f = 8 * s + f := by
  have hf3 : f < 2 ^ 3 := by norm_num; omega
  have h := Nat.mul_add_lt_is_or (i := 3) (b := f) hf3 s
  rw [Nat.shiftLeft_eq, Nat.mul_comm s (2 ^ 3)]
  norm_num at h ⊢
  omega

/-- Decoding the size field of a meta word written as
`(size <<< 3) | flags` (with the word store truncating to 64 bits). -/
theorem decode_size (s f : Nat) (hf : f < 8)
    (hs : s < 2305843009213693952) :
    ((s <<< 3 ||| f) % 18446744073709551616) >>> 3 = s := by
  rw [shiftLeft3_lor s f hf, Nat.shiftRight_eq_div_pow]
  norm_num
  omega

/-- Extracting bit 0 (the `is_free` bit of `part_002`, the `is_last` bit of
`MemoryPool.h`) from a packed-and-truncated meta word. -/
theorem decode_bit0 (s f : Nat) (hf : f < 8) :
    ((s <<< 3 ||| f) % 18446744073709551616) &&& 1 = f % 2 := by
  rw [shiftLeft3_lor s f hf, Nat.and_one_is_mod]
  omega

/-- Extracting bit 1 from a packed-and-truncated meta word. -/
theorem decode_bit1 (s f : Nat) (hf : f < 8) :
    (((s <<< 3 ||| f) % 18446744073709551616) >>> 1) &&& 1 = f / 2 % 2 := by
  rw [shiftLeft3_lor s f hf, Nat.and_one_is_mod, Nat.shiftRight_eq_div_pow]
  norm_num
  omega

/-- Extracting bit 2 from a packed-and-truncated meta word. -/
theorem decode_bit2 (s f : Nat) (hf : f < 8) :
    (((s <<< 3 ||| f) % 18446744073709551616) >>> 2) &&& 1 = f / 4 % 2 := by
  rw [shiftLeft3_lor s f hf, Nat.and_one_is_mod, Nat.shiftRight_eq_div_pow]
  norm_num
  omega

/-! ### The boundary-tag pool of `src/unnamed/part_002`

Chunk layout: `|next chunk ptr|block|...|block|chunk footer|`.
A `BlockHeader` is 16 bytes: the packed `meta` word (bit 0 `is_free`,
bit 1 `is_prev_free`, bit 2 `is_last`, bits 3.. `block_size`) followed by
the `mask` word, which placement-new always initialises to the address of
the header's own payload (header + 16).  A free block ends in an 8-byte
footer holding the address of its header. -/

namespace MemoryPool2

/-- Pool state: the byte memory, `chunk_head_`, `curr_block_` (0 plays the
role of `nullptr`), and the model's bump pointer for fresh chunk bases. -/
structure State where
  mem : Mem
  chunk_head : Nat
  curr_block : Nat
  next_base : Nat
deriving DecidableEq

/-- The default-constructed singleton state; chunk bases start at 2^20 so
that no pointer is 0 and `p - 16` never truncates. -/
def init : State := { mem := Mem.empty, chunk_head := 0, curr_block := 0, next_base := 1048576 }

/-- `BlockHeader::block_size`: `meta >> 3`. -/
def block_size (m : Mem) (a : Nat) : Nat := rword m a >>> 3

/-- `BlockHeader::is_free`: `meta & 1`. -/
def is_free (m : Mem) (a : Nat) : Bool := rword m a &&& 1 == 1

/-- `BlockHeader::is_prev_free`: `(meta >> 1) & 1`. -/
def is_prev_free (m : Mem) (a : Nat) : Bool := (rword m a >>> 1) &&& 1 == 1

/-- `BlockHeader::is_last`: `(meta >> 2) & 1`. -/
def is_last (m : Mem) (a : Nat) : Bool := (rword m a >>> 2) &&& 1 == 1

/-- Placement-new of a `BlockHeader` with a given `meta`: writes `meta` and
initialises the `mask` member to the address of the block's own payload. -/
def newBlockHeader (m : Mem) (a mt : Nat) : Mem :=
  wword (wword m a mt) (a + 8) (a + 16)

/-- `BlockHeader::set_free`: `meta |= 1`. -/
def set_free (m : Mem) (a : Nat) : Mem := wword m a (rword m a ||| 1)

/-- `BlockHeader::set_unfree`: `meta &= ~1`. -/
def set_unfree (m : Mem) (a : Nat) : Mem :=
  wword m a (rword m a &&& 18446744073709551614)

/-- `BlockHeader::set_prev_free`: `meta |= 2`. -/
def set_prev_free (m : Mem) (a : Nat) : Mem := wword m a (rword m a ||| 2)

/-- `BlockHeader::merge_next_block`: absorb the physically next block when
it exists and is free; the meta word is rewritten in either case (and its
`is_free` bit is dropped, exactly as in the source). -/
def merge_next_block (m : Mem) (a : Nat) : Mem :=
  let mt := rword m a
  let blockSize := mt >>> 3
  let isLast := mt &&& 4
  let merged :=
    if isLast == 0 && is_free m (a + blockSize) then
      (blockSize + block_size m (a + blockSize), rword m (a + blockSize) &&& 4)
    else
      (blockSize, isLast)
  wword m a ((merged.1 <<< 3) ||| merged.2 ||| (mt &&& 2))

/-- `BlockHeader::merge_prev_block`: when `is_prev_free`, follow the footer
word just below this header to the previous block's header and
placement-new a merged header there; returns the resulting header. -/
def merge_prev_block (m : Mem) (a : Nat) : Nat × Mem :=
  if !is_prev_free m a then (a, m)
  else
    let b := rword m (a - 8)
    let blockSize := block_size m a + block_size m b
    (b, newBlockHeader m b ((blockSize <<< 3) ||| (rword m a &&& 4)))

/-- `MemoryPool::Free_curr_block`. -/
def Free_curr_block (s : State) : State :=
  let m1 := set_free s.mem s.curr_block
  let m2 := wword m1 (s.curr_block + block_size m1 s.curr_block - 8) s.curr_block
  let m3 :=
    if !is_last m2 s.curr_block then
      set_prev_free m2 (s.curr_block + block_size m2 s.curr_block)
    else m2
  { s with mem := m3 }

/-- `MemoryPool::Alloc_from_curr_block`.  `freeSize` is the signed
difference computed in the source (`ssize_t`), so the too-small case is
detected correctly in this variant. -/
def Alloc_from_curr_block (s : State) (allocSize : Nat) : Option Nat × State :=
  let c := s.curr_block
  let freeSize : Int := (block_size s.mem c : Int) - (allocSize : Int)
  if freeSize < 0 then (none, s)
  else if freeSize < 24 then (some (c + 16), { s with mem := set_unfree s.mem c })
  else
    let isLast := rword s.mem c &&& 4
    let prevFree := rword s.mem c &&& 2
    let m1 := newBlockHeader s.mem c ((allocSize <<< 3) ||| prevFree)
    let c2 := c + block_size m1 c
    let m2 := newBlockHeader m1 c2 ((freeSize.toNat <<< 3) ||| isLast ||| 1)
    let m3 := wword m2 (c2 + block_size m2 c2 - 8) c2
    let m4 := if isLast == 0 then set_prev_free m3 (c2 + block_size m3 c2) else m3
    (some (c + 16), { s with mem := m4, curr_block := c2 })

/-- The chunk size chosen by `MemoryPool::Alloc_from_new_chunk`:
`extend_size = chunk_tag_size + block_header_size + size + block_tag_size`
and then `max(default_size, size_t{1} << std::bit_width(extend_size))`. -/
def newChunkSize (size : Nat) : Nat :=
  max 4096 (1 <<< bit_width (16 + 16 + size + 24))

/-- `MemoryPool::Alloc_from_new_chunk`.  `operator new` is modelled by the
bump pointer `next_base`; chunks are disjoint and far apart. -/
def Alloc_from_new_chunk (s : State) (size : Nat) : Option Nat × State :=
  let chunk_size := newChunkSize size
  let p := s.next_base
  let m1 := wword s.mem p s.chunk_head
  let q := p + chunk_size - 8
  let m2 := wword m1 q (rword m1 p)
  let alloc_size := 16 + size
  let tb := p + 8
  let m3 := newBlockHeader m2 tb (alloc_size <<< 3)
  let cb := tb + alloc_size
  let m4 := newBlockHeader m3 cb (((q - cb) <<< 3) ||| 5)
  let m5 := wword m4 (cb + block_size m4 cb - 8) cb
  (some (tb + 16),
   { mem := m5, chunk_head := p, curr_block := cb,
     next_base := s.next_base + chunk_size + 1048576 })

/-- One step of `allocate`'s do-while walk over the blocks of all chunks,
with explicit fuel (the theorems only use states in which the walk
terminates well within the fuel). -/
def allocate_walk (allocSize start : Nat) : Nat → State → Option Nat × State
  | 0, s => (none, s)
  | fuel + 1, s =>
    let attempt :=
      if is_free s.mem s.curr_block then Alloc_from_curr_block s allocSize
      else (none, s)
    match attempt with
    | (some v, s1) => (some v, s1)
    | (none, s1) =>
      let c := s1.curr_block
      let c' :=
        if is_last s1.mem c then
          let nc := rword s1.mem (c + block_size s1.mem c)
          (if nc = 0 then s1.chunk_head else nc) + 8
        else c + block_size s1.mem c
      let s2 := { s1 with curr_block := c' }
      if c' = start then (none, s2) else allocate_walk allocSize start fuel s2

/-- `MemoryPool::allocate`. -/
def allocate (s : State) (size : Nat) : Option Nat × State :=
  if size = 0 then (none, s)
  else
    let walk :=
      if s.chunk_head ≠ 0 then allocate_walk (16 + size) s.curr_block 4096 s
      else (none, s)
    match walk with
    | (some v, s1) => (some v, s1)
    | (none, s1) => Alloc_from_new_chunk s1 size

/-- The shared tail of `reallocate`:
`Free_curr_block(); return memcpy(allocate(size), p, payloadSize);`
(when `allocate` fails the source passes `nullptr` to `memcpy`, which is
undefined; the model returns null without copying). -/
def Free_then_alloc (s : State) (p payloadSize size : Nat) : Option Nat × State :=
  let s1 := Free_curr_block s
  match allocate s1 size with
  | (none, s2) => (none, s2)
  | (some q, s2) => (some q, { s2 with mem := copyBytes s2.mem q p payloadSize })

/-- `MemoryPool::reallocate`. -/
def reallocate (s : State) (p size : Nat) : Option Nat × State :=
  if p = 0 then allocate s size
  else
    let block := p - 16
    if rword s.mem (block + 8) ≠ p then (none, s)
    else
      let payloadSize := block_size s.mem block - 16
      let allocSize := 16 + size
      let s1 := { s with curr_block := block, mem := merge_next_block s.mem block }
      match Alloc_from_curr_block s1 allocSize with
      | (some r, s2) => (some r, s2)
      | (none, s2) =>
        let pm := merge_prev_block s2.mem s2.curr_block
        let s3 := { s2 with mem := pm.2, curr_block := pm.1 }
        if s3.curr_block ≠ block then
          match Alloc_from_curr_block s3 allocSize with
          | (some r, s4) => (some r, { s4 with mem := copyBytes s4.mem r p payloadSize })
          | (none, s4) => Free_then_alloc s4 p payloadSize size
        else Free_then_alloc s3 p payloadSize size

/-- `MemoryPool::deallocate`. -/
def deallocate (s : State) (p : Nat) : State :=
  if p = 0 then s
  else
    let block := p - 16
    if rword s.mem (block + 8) ≠ p then s
    else
      let m1 := merge_next_block s.mem block
      let pm := merge_prev_block m1 block
      Free_curr_block { s with mem := pm.2, curr_block := pm.1 }

end MemoryPool2

/-! ### Small bitwise helpers used by the pool proofs -/

theorem or_and_one (a b : Nat) : (a ||| b) &&& 1 = (a &&& 1) ||| (b &&& 1) := by
  rw [Nat.and_comm, Nat.and_or_distrib_left, Nat.and_comm 1 a, Nat.and_comm 1 b]

theorem and_four_and_one (x : Nat) : (x &&& 4) &&& 1 = 0 := by
  rw [Nat.and_assoc]
  norm_num

theorem and_two_and_one (x : Nat) : (x &&& 2) &&& 1 = 0 := by
  rw [Nat.and_assoc]
  norm_num

theorem and_four_lt_eight (x : Nat) : x &&& 4 < 8 :=
  Nat.lt_of_le_of_lt Nat.and_le_right (by norm_num)

theorem and_two_lt_eight (x : Nat) : x &&& 2 < 8 :=
  Nat.lt_of_le_of_lt Nat.and_le_right (by norm_num)

theorem or_lt_eight {a b : Nat} (ha : a < 8) (hb : b < 8) : a ||| b < 8 :=
  Nat.or_lt_two_pow (n := 3) ha hb

/-- Setting bit 1 of a word makes bit 1 read back as set (used for
`set_prev_free`). -/
theorem bit1_of_or_two (x : Nat) : ((x ||| 2) >>> 1) &&& 1 = 1 := by
  have h : Nat.testBit (x ||| 2) 1 = true := by
    rw [Nat.testBit_or]
    have h2 : Nat.testBit 2 1 = true := by decide
    rw [h2, Bool.or_true]
  rw [Nat.testBit_to_div_mod] at h
  rw [Nat.and_one_is_mod, Nat.shiftRight_eq_div_pow]
  norm_num at h ⊢
  exact h

/-- Clearing bit 0 of a word makes bit 0 read back as clear (used for
`set_unfree`: `meta &= ~1`). -/
theorem bit0_of_and_mask (x : Nat) : (x &&& 18446744073709551614) &&& 1 = 0 := by
  rw [Nat.and_assoc]
  norm_num

/-! ### Claim C2 -/

/-- C2: for the boundary-tag pool (`src/unnamed/part_002`): for every
non-null pointer `p` whose derived header (at `p - header_size`) holds a
mask word different from `p`, `deallocate(p)` is a strict no-op: the
entire pool state — memory (hence free/allocated metadata of every block
and the chunk stack words) and both head pointers — is returned exactly
as it was.  (`16 ≤ p` says `p - header_size` does not underflow, i.e. the
model mirrors the pointer arithmetic of the source.) -/
theorem C2_deallocate_mask_mismatch_noop (s : MemoryPool2.State) (p : Nat)
    (hp : p ≠ 0) (hm : rword s.mem (p - 16 + 8) ≠ p) :
    MemoryPool2.deallocate s p = s := by
  unfold MemoryPool2.deallocate
  rw [if_neg hp, if_pos hm]

/-- C2 witness: the pool just after its first `allocate(100)` (payload at
1048600), probed with the foreign pointer 1048601, whose derived mask word
does not match. -/
def mp2_s1 : MemoryPool2.State := (MemoryPool2.allocate MemoryPool2.init 100).2

theorem C2_witness :
    ((1048601 : Nat) ≠ 0 ∧ rword mp2_s1.mem (1048601 - 16 + 8) ≠ 1048601) ∧
    MemoryPool2.deallocate mp2_s1 1048601 = mp2_s1 :=
  ⟨⟨by decide, by decide⟩,
    C2_deallocate_mask_mismatch_noop mp2_s1 1048601 (by decide) (by decide)⟩

/-! ### Claim C8 -/

/-- Modelled from the spec: the chunk-size formula of §4.2.2 that claim C8
states — `max(default_chunk_size, ceil_to_power_of_two(chunk_header_size +
alloc_size + chunk_footer_size + min_block_size))` — instantiated at this
pool's constants: chunk header and footer 8 bytes each, block header 16,
block footer 8, `G = max(header, footer, 2·pointer_width, max_align) = 16`,
`min_block_size = header_size + 2·pointer_width + footer_size = 40`, and
`alloc_size = round_up(header_size + s, G)` clamped to `min_block_size`. -/
def specChunkSize (size : Nat) : Nat :=
  max 4096 (bit_ceil (8 + max (((16 + size + 15) / 16) * 16) 40 + 8 + 40))

/-- C8 (counterexample): for `allocate(4030)` with no fitting free block,
the code's chunk size (`MemoryPool2.newChunkSize`, i.e.
`max(4096, 1 << bit_width(extend_size))` as in `Alloc_from_new_chunk`)
is 4096, while the size the claim's formula prescribes is 8192. -/
theorem C8_counterexample :
    MemoryPool2.newChunkSize 4030 = 4096 ∧ specChunkSize 4030 = 8192 ∧
    MemoryPool2.newChunkSize 4030 ≠ specChunkSize 4030 := by decide

/-- C8 (amended): when no free block fits, the new chunk's size is
`max(4096, 2 ^ bit_width(chunk_tag_size + block_header_size + size +
block_tag_size))`, where `2 ^ bit_width(e)` is the least power of two
strictly greater than `e` — not the least power of two ≥ the spec's sum,
and with no granularity rounding of the allocation size. -/
theorem C8_amended_chunk_size (size : Nat) (h : size < 18446744073709551560) :
    MemoryPool2.newChunkSize size
        = max 4096 (2 ^ bit_width (16 + 16 + size + 24)) ∧
    16 + 16 + size + 24 < 2 ^ bit_width (16 + 16 + size + 24) ∧
    (∀ k : Nat, 16 + 16 + size + 24 < 2 ^ k →
      bit_width (16 + 16 + size + 24) ≤ k) := by
  have h64 : 16 + 16 + size + 24 < 2 ^ 64 := by norm_num; omega
  have hne : 16 + 16 + size + 24 ≠ 0 := by omega
  refine ⟨?_, lt_two_pow_bit_width h64 hne, fun k hk => bit_width_le h64 hk⟩
  unfold MemoryPool2.newChunkSize
  rw [Nat.shiftLeft_eq, Nat.one_mul]

theorem C8_amended_witness :
    (100 : Nat) < 18446744073709551560 ∧
    MemoryPool2.newChunkSize 100
      = max 4096 (2 ^ bit_width (16 + 16 + 100 + 24)) :=
  ⟨by norm_num, (C8_amended_chunk_size 100 (by norm_num)).1⟩

/-! ### Claim C9 -/

theorem rword_newBlockHeader_meta (m : Mem) (a mt : Nat) :
    rword (MemoryPool2.newBlockHeader m a mt) a = mt % 18446744073709551616 := by
  unfold MemoryPool2.newBlockHeader
  rw [rword_wword_out _ _ (by omega), rword_wword_self]

theorem rword_newBlockHeader_out (m : Mem) {a x : Nat} (mt : Nat)
    (h : x + 8 ≤ a ∨ a + 16 ≤ x) :
    rword (MemoryPool2.newBlockHeader m a mt) x = rword m x := by
  unfold MemoryPool2.newBlockHeader
  rw [rword_wword_out _ _ (by omega), rword_wword_out _ _ (by omega)]

/-- C9: for the boundary-tag pool (`src/unnamed/part_002`): when
`Alloc_from_curr_block` — the split site used by both `allocate` and
`reallocate` — splits a free block (the remainder `S`, of size at least
`block_tag_size`, stays free) and the block is not the last of its chunk,
then after the call the block physically following `S` (which sits at
`curr + block_size`, since `S` inherits the tail of the candidate) has
`is_prev_free = true`; the call returns the candidate's payload. -/
theorem C9_split_sets_prev_free (s : MemoryPool2.State) (allocSize : Nat)
    (hlast : rword s.mem s.curr_block &&& 4 = 0)
    (hfit : allocSize + 24 ≤ MemoryPool2.block_size s.mem s.curr_block)
    (hbound : MemoryPool2.block_size s.mem s.curr_block < 2305843009213693952) :
    (MemoryPool2.Alloc_from_curr_block s allocSize).1
        = some (s.curr_block + 16) ∧
    MemoryPool2.is_prev_free
      (MemoryPool2.Alloc_from_curr_block s allocSize).2.mem
      (s.curr_block + MemoryPool2.block_size s.mem s.curr_block) = true := by
  have hW : (18446744073709551616 : Nat) = 2 ^ 64 := by norm_num
  set c := s.curr_block with hc
  set bs := MemoryPool2.block_size s.mem c with hbs
  have h0 : ¬ ((bs : Int) - (allocSize : Int) < 0) := by omega
  have h24 : ¬ ((bs : Int) - (allocSize : Int) < 24) := by omega
  have htn : ((bs : Int) - (allocSize : Int)).toNat = bs - allocSize := by omega
  simp only [MemoryPool2.Alloc_from_curr_block, ← hbs, ← hc, h0, if_false, h24,
    hlast, Nat.or_zero, htn, Nat.zero_or, beq_self_eq_true, if_true]
  have hm1 : rword (MemoryPool2.newBlockHeader s.mem c
      (allocSize <<< 3 ||| rword s.mem c &&& 2)) c >>> 3 = allocSize := by
    rw [rword_newBlockHeader_meta,
      decode_size _ _ (and_two_lt_eight _) (by omega)]
  simp only [MemoryPool2.block_size, hm1]
  have hm2 : rword (MemoryPool2.newBlockHeader
      (MemoryPool2.newBlockHeader s.mem c (allocSize <<< 3 ||| rword s.mem c &&& 2))
      (c + allocSize) ((bs - allocSize) <<< 3 ||| 1)) (c + allocSize) >>> 3
      = bs - allocSize := by
    rw [rword_newBlockHeader_meta, decode_size _ _ (by norm_num) (by omega)]
  simp only [hm2]
  have hm3 : rword (wword (MemoryPool2.newBlockHeader
      (MemoryPool2.newBlockHeader s.mem c (allocSize <<< 3 ||| rword s.mem c &&& 2))
      (c + allocSize) ((bs - allocSize) <<< 3 ||| 1))
      (c + allocSize + (bs - allocSize) - 8) (c + allocSize)) (c + allocSize) >>> 3
      = bs - allocSize := by
    rw [rword_wword_out _ _ (by omega), hm2]
  simp only [hm3]
  have ht : c + allocSize + (bs - allocSize) = c + bs := by omega
  rw [ht]
  refine ⟨trivial, ?_⟩
  simp only [MemoryPool2.set_prev_free, MemoryPool2.is_prev_free]
  rw [rword_wword_self]
  have hor : ∀ (mm : Mem) (x : Nat),
      (rword mm x ||| 2) % 18446744073709551616 = rword mm x ||| 2 := by
    intro mm x
    apply Nat.mod_eq_of_lt
    rw [hW]
    exact Nat.or_lt_two_pow (hW ▸ rword_lt _ _) (by norm_num)
  rw [hor, bit1_of_or_two]
  rfl

/-- C9 witness state: a single non-last free 200-byte block at address 0. -/
def c9_state : MemoryPool2.State :=
  { mem := wword Mem.empty 0 ((200 <<< 3) ||| 1), chunk_head := 0, curr_block := 0,
    next_base := 0 }

theorem C9_witness :
    (rword c9_state.mem c9_state.curr_block &&& 4 = 0 ∧
     100 + 24 ≤ MemoryPool2.block_size c9_state.mem c9_state.curr_block ∧
     MemoryPool2.block_size c9_state.mem c9_state.curr_block
       < 2305843009213693952) ∧
    MemoryPool2.is_prev_free
      (MemoryPool2.Alloc_from_curr_block c9_state 100).2.mem
      (c9_state.curr_block +
        MemoryPool2.block_size c9_state.mem c9_state.curr_block) = true :=
  ⟨⟨by decide, by decide, by decide⟩,
   (C9_split_sets_prev_free c9_state 100 (by decide) (by decide) (by decide)).2⟩


/-! ### Claim C7 -/

/-- `merge_next_block` always rewrites the header word at `a` to
`(X << 3) | f`, where `X` lies between the old size and the old size plus
the next block's size and `f` keeps only flag bits (bit 0 clear). -/
theorem merge_next_block_char (m : Mem) (a : Nat) :
    ∃ X f, MemoryPool2.merge_next_block m a = wword m a (X <<< 3 ||| f) ∧
      MemoryPool2.block_size m a ≤ X ∧
      X ≤ MemoryPool2.block_size m a +
        MemoryPool2.block_size m (a + MemoryPool2.block_size m a) ∧
      f < 8 ∧ f &&& 1 = 0 := by
  unfold MemoryPool2.merge_next_block
  simp only [MemoryPool2.block_size]
  by_cases h : ((rword m a &&& 4) == 0 &&
      MemoryPool2.is_free m (a + (rword m a >>> 3))) = true
  · rw [if_pos h]
    refine ⟨rword m a >>> 3 + rword m (a + (rword m a >>> 3)) >>> 3,
      (rword m (a + (rword m a >>> 3)) &&& 4) ||| (rword m a &&& 2),
      ?_, Nat.le_add_right _ _, Nat.le_refl _,
      or_lt_eight (and_four_lt_eight _) (and_two_lt_eight _), ?_⟩
    · rw [Nat.or_assoc]
    · rw [or_and_one, and_four_and_one, and_two_and_one]
      decide
  · rw [if_neg h]
    refine ⟨rword m a >>> 3, (rword m a &&& 4) ||| (rword m a &&& 2),
      ?_, Nat.le_refl _, Nat.le_add_right _ _,
      or_lt_eight (and_four_lt_eight _) (and_two_lt_eight _), ?_⟩
    · rw [Nat.or_assoc]
    · rw [or_and_one, and_four_and_one, and_two_and_one]
      decide

/-- `Alloc_from_curr_block` succeeds whenever the request fits the current
block outright, returning the current block's payload (in the consume-whole
case directly, in the split case as the carved target block, which keeps
the same base address); either way the header's `is_free` bit ends clear. -/
theorem Alloc_success (s : MemoryPool2.State) (allocSize : Nat)
    (h16 : 16 ≤ allocSize)
    (hle : allocSize ≤ MemoryPool2.block_size s.mem s.curr_block)
    (hbound : MemoryPool2.block_size s.mem s.curr_block < 2305843009213693952) :
    (MemoryPool2.Alloc_from_curr_block s allocSize).1
        = some (s.curr_block + 16) ∧
    MemoryPool2.is_free (MemoryPool2.Alloc_from_curr_block s allocSize).2.mem
      s.curr_block = false := by
  have hW : (18446744073709551616 : Nat) = 2 ^ 64 := by norm_num
  set c := s.curr_block with hc
  set bs := MemoryPool2.block_size s.mem c with hbs
  have h0 : ¬ ((bs : Int) - (allocSize : Int) < 0) := by omega
  have hand : ∀ mm x, rword mm x &&& 18446744073709551614
      < 18446744073709551616 :=
    fun mm x => Nat.lt_of_le_of_lt Nat.and_le_left (rword_lt mm x)
  by_cases h24 : ((bs : Int) - (allocSize : Int) < 24)
  · simp only [MemoryPool2.Alloc_from_curr_block, ← hbs, ← hc, h0, if_false,
      h24, if_true]
    refine ⟨trivial, ?_⟩
    simp only [MemoryPool2.set_unfree, MemoryPool2.is_free]
    rw [rword_wword_self, Nat.mod_eq_of_lt (hand _ _), bit0_of_and_mask]
    rfl
  · have htn : ((bs : Int) - (allocSize : Int)).toNat = bs - allocSize := by
      omega
    simp only [MemoryPool2.Alloc_from_curr_block, ← hbs, ← hc, h0, if_false,
      h24, htn]
    have hm1 : rword (MemoryPool2.newBlockHeader s.mem c
        (allocSize <<< 3 ||| rword s.mem c &&& 2)) c >>> 3 = allocSize := by
      rw [rword_newBlockHeader_meta,
        decode_size _ _ (and_two_lt_eight _) (by omega)]
    simp only [MemoryPool2.block_size, hm1]
    have hmeta0 : rword (MemoryPool2.newBlockHeader s.mem c
        (allocSize <<< 3 ||| rword s.mem c &&& 2)) c &&& 1 = 0 := by
      rw [rword_newBlockHeader_meta, decode_bit0 _ _ (and_two_lt_eight _),
        ← Nat.and_one_is_mod, and_two_and_one]
    have hfl : rword s.mem c &&& 4 ||| 1 < 8 :=
      or_lt_eight (and_four_lt_eight _) (by norm_num)
    have hm2 : rword (MemoryPool2.newBlockHeader
        (MemoryPool2.newBlockHeader s.mem c
          (allocSize <<< 3 ||| rword s.mem c &&& 2))
        (c + allocSize)
        ((bs - allocSize) <<< 3 ||| rword s.mem c &&& 4 ||| 1))
        (c + allocSize) >>> 3 = bs - allocSize := by
      rw [Nat.or_assoc, rword_newBlockHeader_meta, decode_size _ _ hfl (by omega)]
    simp only [hm2]
    have hm3 : rword (wword (MemoryPool2.newBlockHeader
        (MemoryPool2.newBlockHeader s.mem c
          (allocSize <<< 3 ||| rword s.mem c &&& 2))
        (c + allocSize)
        ((bs - allocSize) <<< 3 ||| rword s.mem c &&& 4 ||| 1))
        (c + allocSize + (bs - allocSize) - 8) (c + allocSize))
        (c + allocSize) >>> 3 = bs - allocSize := by
      rw [rword_wword_out _ _ (by omega), hm2]
    simp only [hm3]
    refine ⟨trivial, ?_⟩
    by_cases hLast : ((rword s.mem c &&& 4) == 0) = true
    · rw [if_pos hLast]
      simp only [MemoryPool2.is_free, MemoryPool2.set_prev_free]
      rw [rword_wword_out _ _ (by omega), rword_wword_out _ _ (by omega),
        rword_newBlockHeader_out _ _ (by omega), hmeta0]
      rfl
    · rw [if_neg hLast]
      simp only [MemoryPool2.is_free]
      rw [rword_wword_out _ _ (by omega),
        rword_newBlockHeader_out _ _ (by omega), hmeta0]
      rfl

/-- C7 (counterexample): on the pool after a fresh `allocate(100)`
(payload `p` = 1048600, a live pointer), `reallocate(p, 0)` does not
deallocate and return null: it returns `p` itself, and the block's header
(at 1048584) still has its `is_free` bit clear afterwards. -/
theorem C7_counterexample :
    (MemoryPool2.reallocate mp2_s1 1048600 0).1 = some 1048600 ∧
    (MemoryPool2.reallocate mp2_s1 1048600 0).1 ≠ none ∧
    MemoryPool2.is_free (MemoryPool2.reallocate mp2_s1 1048600 0).2.mem
      1048584 = false := by decide

/-- C7 (amended): for every pointer `p = hdr + 16` with a matching mask and
a sane block size, `reallocate(p, 0)` returns `p` itself (never null) and
leaves the block allocated: the request is turned into
`allocSize = block_header_size + 0 = 16`, which always fits, so the block
is shrunk in place (consume-whole or split) instead of being freed. -/
theorem C7_amended_realloc_zero (s : MemoryPool2.State) (hdr : Nat)
    (hmask : rword s.mem (hdr + 8) = hdr + 16)
    (hbs : 16 ≤ MemoryPool2.block_size s.mem hdr)
    (hsane : MemoryPool2.block_size s.mem hdr +
      MemoryPool2.block_size s.mem (hdr + MemoryPool2.block_size s.mem hdr)
      < 2305843009213693952) :
    (MemoryPool2.reallocate s (hdr + 16) 0).1 = some (hdr + 16) ∧
    MemoryPool2.is_free (MemoryPool2.reallocate s (hdr + 16) 0).2.mem hdr
      = false := by
  obtain ⟨X, f, hmerge, hX1, hX2, hf, hf0⟩ := merge_next_block_char s.mem hdr
  have hp : ¬ (hdr + 16 = 0) := by omega
  have hsub : hdr + 16 - 16 = hdr := by omega
  have hnm : ¬ (rword s.mem (hdr + 8) ≠ hdr + 16) := by simp [hmask]
  have hbs1 : MemoryPool2.block_size
      (MemoryPool2.merge_next_block s.mem hdr) hdr = X := by
    rw [hmerge]
    unfold MemoryPool2.block_size
    rw [rword_wword_self, decode_size _ _ hf (by omega)]
  have hA := Alloc_success
    { s with curr_block := hdr, mem := MemoryPool2.merge_next_block s.mem hdr }
    16 (by norm_num) (by simpa [hbs1] using (by omega : 16 ≤ X))
    (by simpa [hbs1] using (by omega : X < 2305843009213693952))
  rcases hres : MemoryPool2.Alloc_from_curr_block
    { s with curr_block := hdr, mem := MemoryPool2.merge_next_block s.mem hdr }
    16 with ⟨ro, s2⟩
  rw [hres] at hA
  simp only [MemoryPool2.reallocate, if_neg hp, hsub, if_neg hnm, Nat.add_zero]
  rw [hres]
  rcases ro with _ | r
  · exact absurd hA.1 (by simp)
  · simp only at hA ⊢
    exact ⟨hA.1, hA.2⟩

theorem C7_witness :
    (rword mp2_s1.mem (1048584 + 8) = 1048584 + 16 ∧
     16 ≤ MemoryPool2.block_size mp2_s1.mem 1048584 ∧
     MemoryPool2.block_size mp2_s1.mem 1048584 +
       MemoryPool2.block_size mp2_s1.mem
         (1048584 + MemoryPool2.block_size mp2_s1.mem 1048584)
       < 2305843009213693952) ∧
    (MemoryPool2.reallocate mp2_s1 (1048584 + 16) 0).1
      = some (1048584 + 16) :=
  ⟨⟨by decide, by decide, by decide⟩,
   (C7_amended_realloc_zero mp2_s1 1048584 (by decide) (by decide)
     (by decide)).1⟩

/-! ### Claim C4 -/

/-- After `p1 = allocate(100)`, a second `allocate(3930)` consumes the whole
trailing free block (its remainder, 18 bytes, is below `block_tag_size`),
so the chunk has no free block left. -/
def mp2_c4_s2 : MemoryPool2.State := (MemoryPool2.allocate mp2_s1 3930).2

/-- The caller fills `p1`'s 100 payload bytes with 1,2,...,100. -/
def mp2_c4_filled : MemoryPool2.State :=
  { mp2_c4_s2 with
    mem := storeBytes mp2_c4_s2.mem 1048600
      ((List.range 100).map (fun i => i + 1)) }

/-- `reallocate(p1, 200)`: no in-place growth is possible, so the source
frees the block (`Free_curr_block` writes the free-block footer over the
last 8 payload bytes) and only then copies the payload to the new chunk. -/
def mp2_c4_res : Option Nat × MemoryPool2.State :=
  MemoryPool2.reallocate mp2_c4_filled 1048600 200

/-- C4: the reallocation-preserves-payload-prefix property fails on
`src/unnamed/part_002`.  Concretely: `p1 = allocate(100)` holds bytes
1..100; a second allocation pins the chunk; `q = reallocate(p1, 200)`
relocates to a fresh chunk and returns 2101272, but byte 92 of `q` is 8 —
the low byte of the footer pointer 1048584 that `Free_curr_block` wrote
over `p1`'s bytes 92..99 before the copy — instead of the original 93.
So the first `min(100, 200)` bytes are not preserved. -/
theorem C4_realloc_loses_prefix_byte :
    (MemoryPool2.allocate mp2_s1 3930).1 = some 1048716 ∧
    (∀ i, i < 100 → rb mp2_c4_filled.mem (1048600 + i) = i + 1) ∧
    mp2_c4_res.1 = some 2101272 ∧
    rb mp2_c4_res.2.mem (2101272 + 92) = 8 ∧
    ¬ (∀ i, i < 100 →
        rb mp2_c4_res.2.mem (2101272 + i) = rb mp2_c4_filled.mem (1048600 + i)) := by
  decide

/-! ### Claim C5 -/

/-- Three 100-byte allocations: payloads 1048600, 1048716, 1048832. -/
def mp2_c5_s3 : MemoryPool2.State :=
  (MemoryPool2.allocate (MemoryPool2.allocate mp2_s1 100).2 100).2

/-- Free the middle one (`p2` = 1048716). -/
def mp2_c5_s4 : MemoryPool2.State := MemoryPool2.deallocate mp2_c5_s3 1048716

/-- `allocate(92)` consumes the freed middle block whole (remainder 8 <
`block_tag_size`) — but the source forgets to clear `is_prev_free` on the
physically following block, which is the seed of the violation. -/
def mp2_c5_s5 : MemoryPool2.State := (MemoryPool2.allocate mp2_c5_s4 92).2

/-- Free `p1` (1048600): legitimately sets `is_prev_free` on the
re-allocated middle block's follower... then free `p3` (1048832): its stale
`is_prev_free` makes `merge_prev_block` swallow the *live* middle block. -/
def mp2_c5_s6 : MemoryPool2.State := MemoryPool2.deallocate mp2_c5_s5 1048600

def mp2_c5_s7 : MemoryPool2.State := MemoryPool2.deallocate mp2_c5_s6 1048832

/-- C5: the no-two-adjacent-free-blocks invariant fails on
`src/unnamed/part_002` in a state reachable from the empty pool by
`allocate`/`deallocate` alone: after the trace
`p1 = allocate(100); p2 = allocate(100); p3 = allocate(100);
deallocate(p2); p4 = allocate(92); deallocate(p1); deallocate(p3)`,
the block at 1048584 (size 116) and the physically adjacent block at
1048584 + 116 = 1048700 are both free within the same chunk. -/
theorem C5_adjacent_free_blocks_reachable :
    (MemoryPool2.allocate mp2_s1 100).1 = some 1048716 ∧
    (MemoryPool2.allocate (MemoryPool2.allocate mp2_s1 100).2 100).1
      = some 1048832 ∧
    (MemoryPool2.allocate mp2_c5_s4 92).1 = some 1048716 ∧
    MemoryPool2.is_free mp2_c5_s7.mem 1048584 = true ∧
    MemoryPool2.block_size mp2_c5_s7.mem 1048584 = 116 ∧
    MemoryPool2.is_free mp2_c5_s7.mem (1048584 + 116) = true := by
  decide

/-! ### The fixed-size allocator of `src/Allocator.h`

The file holds two variants; this embeds the second one — the variant the
spec's mask terminology comes from, whose `Chunk` constructor reserves
slot 0 for the pending allocation by installing the provenance mask
(`it->mask = it->buffer`) before threading slots 1..N-1 into the free
list.  A slot is `sizeof(FreeBlock)` bytes: the `buffer` payload (padded
to pointer alignment) followed by the `mask`/`next` union word; the
payload is at the slot's base address, so `mask = buffer` stores the
slot's own address.  Since only whole union words are ever read or
written, slots are modelled as a map from slot address to the union's
last-stored member. -/

namespace Allocator

/-- The union inside `FreeBlock`: `mask` (installed on allocation, holding
the address of the slot's own payload) or `next` (the free-list link; 0 is
null). -/
inductive SlotVal where
  | mask (a : Nat)
  | next (a : Nat)
deriving DecidableEq

/-- Reading the union word regardless of which member was stored last (the
type pun `deallocate` relies on). -/
def readPtr : SlotVal → Nat
  | .mask a => a
  | .next a => a

structure State where
  stored : List (Nat × SlotVal)
  free_block_head : Nat
  chunk_head : Nat
  chunks : List (Nat × Nat)
  next_base : Nat
deriving DecidableEq

def init : State :=
  { stored := [], free_block_head := 0, chunk_head := 0, chunks := [],
    next_base := 1048576 }

def blocks_per_chunk : Nat := 1024

/-- `sizeof(FreeBlock)` for payload size `sz`: payload padded to pointer
alignment, plus the union word. -/
def slotSize (sz : Nat) : Nat := ((sz + 7) / 8) * 8 + 8

/-- The threading loop of `Chunk::Chunk`: starting from slot `i`, `count`
slots where each points at its successor and the last one is null. -/
def threadSlots (base ss : Nat) : Nat → Nat → List (Nat × SlotVal)
  | _, 0 => []
  | i, count + 1 =>
    (base + i * ss,
      if count = 0 then SlotVal.next 0 else SlotVal.next (base + (i + 1) * ss))
      :: threadSlots base ss (i + 1) count

/-- `Chunk::Chunk(Chunk* next)`: slot 0 gets the mask (it is about to be
handed out), slots 1..N-1 are threaded into a null-terminated list. -/
def chunkSlots (base ss : Nat) : List (Nat × SlotVal) :=
  (base, SlotVal.mask base) :: threadSlots base ss 1 (blocks_per_chunk - 1)

/-- `Allocator::allocate` (for payload size `sz`): pop the free-list head,
installing the mask over its `next` link; or acquire a fresh chunk whose
constructor pre-installed slot 0's mask, and hand out slot 0. -/
def allocate (sz : Nat) (s : State) : Nat × State :=
  if s.free_block_head ≠ 0 then
    let h := s.free_block_head
    let nb := readPtr ((List.lookup h s.stored).getD (SlotVal.next 0))
    let s1 : State :=
      { s with stored := (h, SlotVal.mask h) :: s.stored, free_block_head := nb }
    (h, s1)
  else
    let base := s.next_base
    let ss := slotSize sz
    (base,
     { stored := chunkSlots base ss ++ s.stored,
       free_block_head := base + ss,
       chunk_head := base,
       chunks := (base, s.chunk_head) :: s.chunks,
       next_base := s.next_base + blocks_per_chunk * ss + 1048576 })

/-- `Allocator::deallocate`: reject (the source throws) when the union word
does not equal the pointer; otherwise push the slot on the free list. -/
def deallocate (s : State) (p : Nat) : Option State :=
  if readPtr ((List.lookup p s.stored).getD (SlotVal.next 0)) ≠ p then none
  else
    let s1 : State :=
      { s with stored := (p, SlotVal.next s.free_block_head) :: s.stored,
               free_block_head := p }
    some s1

end Allocator

/-! ### Claim C3 -/

/-- C3: every `Allocator::allocate()` call installs the provenance mask on
the slot it returns: after the call, the union word of the returned slot
was last stored through the `mask` member and holds the address of the
slot's own payload region (the slot base, where `buffer` lives) — in the
free-list path via `free_block_head->mask = buffer`, and in the
fresh-chunk path (empty free list) via the `Chunk` constructor's
`it->mask = it->buffer` on slot 0, which `allocate` then returns. -/
theorem C3_allocate_installs_mask (sz : Nat) (s : Allocator.State) :
    List.lookup (Allocator.allocate sz s).1 (Allocator.allocate sz s).2.stored
      = some (Allocator.SlotVal.mask (Allocator.allocate sz s).1) := by
  unfold Allocator.allocate
  by_cases h : s.free_block_head ≠ 0
  · rw [if_pos h]
    simp [List.lookup_cons]
  · rw [if_neg h]
    simp [Allocator.chunkSlots, List.lookup_cons]

/-! ### The boundary-tag pool of `src/MemoryPool.h`

`UnfreeBlock` is one 64-bit word of bit-fields, in declaration order from
the least significant bit (the Itanium/System V layout): `is_last` bit 0,
`is_free` bit 1, `is_prev_free` bit 2, `size` bits 3..63.  `FreeBlock`
extends it with the free-list `prev` (offset 8) and `next` (offset 16)
pointers, which live inside the payload returned to callers (`Buffer` is
the header address + 8).  A free block's footer is the word at
`block + size - 8`.  There is no mask field in this variant. -/

namespace MemoryPool

structure State where
  mem : Mem
  chunk_head : Nat
  free_block_head : Nat
  next_base : Nat
deriving DecidableEq

def init : State :=
  { mem := Mem.empty, chunk_head := 0, free_block_head := 0,
    next_base := 1048576 }

/-- The `size` bit-field. -/
def sizeField (m : Mem) (a : Nat) : Nat := rword m a >>> 3

/-- The `is_last` bit-field (bit 0). -/
def is_last (m : Mem) (a : Nat) : Bool := rword m a &&& 1 == 1

/-- The `is_free` bit-field (bit 1). -/
def is_free (m : Mem) (a : Nat) : Bool := (rword m a >>> 1) &&& 1 == 1

/-- The `is_prev_free` bit-field (bit 2). -/
def is_prev_free (m : Mem) (a : Nat) : Bool := (rword m a >>> 2) &&& 1 == 1

/-- `UnfreeBlock::set(is_last, is_free, is_prev_free, size)`; the size
assignment truncates to the 61-bit field. -/
def setHdr (m : Mem) (a : Nat) (l f pf : Bool) (sz : Nat) : Mem :=
  wword m a (((sz % 2305843009213693952) <<< 3) |||
    (if pf then 4 else 0) ||| (if f then 2 else 0) ||| (if l then 1 else 0))

/-- Assignment to the `size` bit-field alone (`block->size = x` and
`block->size += x`), truncating to 61 bits and keeping the flag bits. -/
def set_size (m : Mem) (a sz : Nat) : Mem :=
  wword m a (((sz % 2305843009213693952) <<< 3) ||| (rword m a &&& 7))

/-- Assignment to the `is_free` bit-field alone. -/
def set_is_free (m : Mem) (a : Nat) (v : Bool) : Mem :=
  wword m a
    (if v then rword m a ||| 2 else rword m a &&& 18446744073709551613)

/-- Assignment to the `is_last` bit-field alone. -/
def set_is_last (m : Mem) (a : Nat) (v : Bool) : Mem :=
  wword m a
    (if v then rword m a ||| 1 else rword m a &&& 18446744073709551614)

/-- Assignment to the `is_prev_free` bit-field alone. -/
def set_is_prev_free (m : Mem) (a : Nat) (v : Bool) : Mem :=
  wword m a
    (if v then rword m a ||| 4 else rword m a &&& 18446744073709551611)

/-- The value a signed `remain_size` takes when assigned to the 61-bit
unsigned `size` bit-field (two's complement truncation). -/
def int61 (x : Int) : Nat := (x.emod 2305843009213693952).toNat

/-- `MemoryPool::Insert_block`: head insertion into the doubly-linked free
list; `prev`/`next` are the words at offsets 8 and 16 of the block. -/
def Insert_block (s : State) (b : Nat) : State :=
  let m1 := wword s.mem (b + 8) 0
  let m2 := wword m1 (b + 16) s.free_block_head
  let m3 := if s.free_block_head ≠ 0 then wword m2 (s.free_block_head + 8) b
            else m2
  { s with mem := m3, free_block_head := b }

/-- `MemoryPool::Extract_block`: unlink via the block's own `prev`/`next`
words, whatever they currently hold. -/
def Extract_block (s : State) (b : Nat) : State :=
  let bp := rword s.mem (b + 8)
  let bn := rword s.mem (b + 16)
  let s1 := if bp ≠ 0 then { s with mem := wword s.mem (bp + 16) bn }
            else { s with free_block_head := bn }
  if bn ≠ 0 then { s1 with mem := wword s1.mem (bn + 8) bp } else s1

/-- `MemoryPool::Alloc(block, alloc_size, alloc_size_last)`.  The guards
mirror the source: the split guard compares `block->size` against the
constant `free_block_tag_size` (32) or `free_block_header_size` (24) —
not the remainder — and the fallback guard `block->size >= 0` is the
always-true unsigned comparison of the source, so the trailing
`return nullptr` is unreachable. -/
def Alloc (s : State) (b alloc_size alloc_size_last : Nat) :
    Option Nat × State :=
  let sz := sizeField s.mem b
  if !is_last s.mem b then
    let remain : Int := (sz : Int) - (alloc_size : Int)
    if 32 ≤ sz then
      let nn := b + alloc_size
      let m1 := setHdr s.mem nn false true false (int61 remain)
      let m2 := wword m1 (nn + sizeField m1 nn - 8) nn
      let s1 := Insert_block { s with mem := m2 } nn
      let s2 := Extract_block s1 b
      let m3 := set_is_free s2.mem b false
      let m4 := set_size m3 b alloc_size
      (some (b + 8), { s2 with mem := m4 })
    else if 0 ≤ sz then
      let s1 := Extract_block s b
      let m1 := set_is_free s1.mem b false
      let m2 := set_is_prev_free m1 (b + sizeField m1 b) false
      (some (b + 8), { s1 with mem := m2 })
    else (none, s)
  else
    let remain : Int := (sz : Int) - (alloc_size_last : Int)
    if 24 ≤ sz then
      let nn := b + alloc_size
      let m1 := setHdr s.mem nn true true false (int61 remain)
      let s1 := Insert_block { s with mem := m1 } nn
      let s2 := Extract_block s1 b
      let m2 := set_is_free s2.mem b false
      let m3 := set_is_last m2 b false
      let m4 := set_size m3 b alloc_size
      (some (b + 8), { s2 with mem := m4 })
    else if 0 ≤ sz then
      let s1 := Extract_block s b
      let m1 := set_is_free s1.mem b false
      (some (b + 8), { s1 with mem := m1 })
    else (none, s)

/-- `MemoryPool::Free`. -/
def Free (s : State) (b : Nat) : State :=
  let m1 := set_is_free s.mem b true
  let m2 :=
    if !is_last m1 b then
      let m2a := wword m1 (b + sizeField m1 b - 8) b
      set_is_prev_free m2a (b + sizeField m2a b) true
    else m1
  Insert_block { s with mem := m2 } b

/-- `MemoryPool::Merge_next`: absorb a free physical successor (extract it
first, then grow this block's size field and inherit `is_last`). -/
def Merge_next (s : State) (b : Nat) : State :=
  if !is_last s.mem b then
    let nn := b + sizeField s.mem b
    if is_free s.mem nn then
      let s1 := Extract_block s nn
      let m1 := set_size s1.mem b (sizeField s1.mem b + sizeField s1.mem nn)
      let m2 := set_is_last m1 b (is_last m1 nn)
      { s1 with mem := m2 }
    else s
  else s

/-- `MemoryPool::Merge_prev`: absorb a free physical predecessor found via
the footer word just below this header.  Exactly as in the source, the
merged extent keeps THIS block's header (the function returns `block`,
not the predecessor) and grows this block's size field. -/
def Merge_prev (s : State) (b : Nat) : State :=
  if is_prev_free s.mem b then
    let pn := rword s.mem (b - 8)
    let s1 := Extract_block s pn
    let m1 := set_size s1.mem b (sizeField s1.mem b + sizeField s1.mem pn)
    let m2 := set_is_prev_free m1 b (is_prev_free m1 pn)
    { s1 with mem := m2 }
  else s

/-- The free-list walk of `allocate`
(`for (auto curr = free_block_head_; curr; curr = curr->next)`), with
fuel; a failed `Alloc` leaves the state untouched. -/
def alloc_walk (alloc_size alloc_size_last : Nat) :
    Nat → Nat → State → Option Nat × State
  | 0, _, s => (none, s)
  | fuel + 1, curr, s =>
    if curr = 0 then (none, s)
    else
      match Alloc s curr alloc_size alloc_size_last with
      | (some r, s1) => (some r, s1)
      | (none, s1) =>
        alloc_walk alloc_size alloc_size_last fuel (rword s1.mem (curr + 16)) s1

/-- The chunk size `allocate` requests when no free block satisfies the
request: `max(default_size, std::bit_ceil(chunk_header_size + alloc_size +
free_block_header_size))`. -/
def newChunkSize (alloc_size : Nat) : Nat := max 4096 (bit_ceil (8 + alloc_size + 24))

/-- `MemoryPool::allocate`. -/
def allocate (s : State) (size : Nat) : Option Nat × State :=
  if size = 0 then (none, s)
  else
    let alloc_size := max (8 + size) 32
    let alloc_size_last := max (8 + size) 24
    match alloc_walk alloc_size alloc_size_last 4096 s.free_block_head s with
    | (some r, s1) => (some r, s1)
    | (none, s1) =>
      let chunk_size := newChunkSize alloc_size
      let p := s1.next_base
      let m1 := wword s1.mem p s1.chunk_head
      let s2 : State :=
        { s1 with mem := m1, chunk_head := p,
                  next_base := s1.next_base + chunk_size + 1048576 }
      let res := p + 8
      let m2 := setHdr s2.mem res false false false alloc_size
      let nn := res + alloc_size
      let m3 := setHdr m2 nn true true false (chunk_size - 8 - alloc_size)
      let s3 := Insert_block { s2 with mem := m3 } nn
      (some (res + 8), s3)

/-- `MemoryPool::deallocate` (this variant has no mask check).  The
source derives the header as
`static_cast<UnfreeBlock*>(p) - unfree_block_header_size`: pointer
arithmetic on `UnfreeBlock*`, which subtracts 8 *elements* of
`sizeof(UnfreeBlock)` = 8 bytes each — the header is taken 64 bytes below
the payload, not the 8 bytes that `Buffer` adds. -/
def deallocate (s : State) (p : Nat) : State :=
  if p = 0 then s
  else
    let b := p - 64
    let s1 := Merge_next s b
    let s2 := Merge_prev s1 b
    Free s2 b

/-- The shared tail of `reallocate`:
`Free(block); return memcpy(allocate(size), p, payload_size);` (a null
`allocate` result would make the source pass `nullptr` to `memcpy`; the
model returns null without copying). -/
def Free_then_alloc (s : State) (b p payload_size size : Nat) :
    Option Nat × State :=
  let s1 := Free s b
  match allocate s1 size with
  | (none, s2) => (none, s2)
  | (some q, s2) => (some q, { s2 with mem := copyBytes s2.mem q p payload_size })

/-- `MemoryPool::reallocate`.  The header is derived with the same scaled
pointer arithmetic as in `deallocate`, 64 bytes below the payload.
`Merge_prev` returns its argument, so the source's
`if (const auto t = Merge_prev(block); block != t)` branch (the
copy-after-backward-merge attempt) is dead code; `Merge_prev`'s side
effects still happen. -/
def reallocate (s : State) (p size : Nat) : Option Nat × State :=
  if p = 0 then allocate s size
  else
    let b := p - 64
    let payload_size := sizeField s.mem b - 8
    let alloc_size := max (8 + size) 32
    let alloc_size_last := max (8 + size) 24
    let s1 := Merge_next s b
    match Alloc s1 b alloc_size alloc_size_last with
    | (some r, s2) => (some r, s2)
    | (none, s2) =>
      let s3 := Merge_prev s2 b
      Free_then_alloc s3 b p payload_size size

/-- The destructor loop
`for (auto p = chunk_head_; p; p = *reinterpret_cast<void**>(chunk_head_))
{ operator delete[](p); }`, with fuel: the list of pointers passed to
`operator delete[]`, in order.  Releasing is modelled as recording the
pointer; the freed chunk's bytes stay readable with their old values
(the loop's step expression reads `*chunk_head_` after `chunk_head_` has
been released — a use-after-free in the source — and the model gives that
read the common concrete behaviour of returning the stale bytes). -/
def dtorReleases (m : Mem) (chunk_head : Nat) : Nat → Nat → List Nat
  | _, 0 => []
  | p, fuel + 1 =>
    if p = 0 then []
    else p :: dtorReleases m chunk_head (rword m chunk_head) fuel

end MemoryPool

/-! ### Claim C1 -/

/-- Three allocations from the empty pool, none ever freed:
`allocate(24)` (payload 1048592), `allocate(4016)` (payload 1048624, split
from the chunk's tail), and `allocate(16)`.  The last call has
`alloc_size = max(8+16, 32) = 32` but `alloc_size_last = max(8+16, 24) =
24`; the last-block split places the remainder at `block + alloc_size`
but sizes it as `block->size - alloc_size_last`, so the 32-byte tail
yields an 8-byte remainder sitting right at the chunk's end — and that
phantom block is now the whole free list. -/
def mp_c1_s3 : MemoryPool.State :=
  (MemoryPool.allocate
    (MemoryPool.allocate
      (MemoryPool.allocate MemoryPool.init 24).2 4016).2 16).2

/-- `allocate(100)` on that state: `alloc_size = 108`. -/
def mp_c1_res : Option Nat × MemoryPool.State := MemoryPool.allocate mp_c1_s3 100

/-- C1: `MemoryPool::Alloc` of `src/MemoryPool.h` selects a free-list
candidate smaller than the request.  In the state `mp_c1_s3`, reached by
three `allocate` calls alone, the free-list head (header 1052672) is a
free last block whose size field is 8; `allocate(100)` needs
`alloc_size = 108 > 8`, yet — because the code's fallback guard is the
vacuously true unsigned comparison `block->size >= 0`, making the
trailing `return nullptr` unreachable — the candidate is consumed whole
and its payload 1052680 returned: a non-null result whose block still has
size field 8, i.e. 0 payload bytes of capacity, far less than the 100
requested. -/
theorem C1_alloc_selects_undersized_candidate :
    (MemoryPool.allocate MemoryPool.init 24).1 = some 1048592 ∧
    (MemoryPool.allocate (MemoryPool.allocate MemoryPool.init 24).2 4016).1
      = some 1048624 ∧
    mp_c1_s3.free_block_head = 1052672 ∧
    MemoryPool.is_free mp_c1_s3.mem 1052672 = true ∧
    MemoryPool.is_last mp_c1_s3.mem 1052672 = true ∧
    MemoryPool.sizeField mp_c1_s3.mem 1052672 = 8 ∧
    mp_c1_res.1 = some 1052680 ∧
    1052680 = 1052672 + 8 ∧
    MemoryPool.sizeField mp_c1_res.2.mem 1052672 = 8 ∧
    8 < 108 ∧ 8 - 8 < 100 := by decide

/-! ### Claim C10 -/

/-- One `allocate(24)`: the free list is the single tail block
S = 1048616 (size 4056, last, free) with null `prev` and `next` — a
well-formed list.  Then `deallocate(1048680)`: the spec (property 7 and
§7) requires a deallocation with a pointer the allocator never returned
to be a harmless no-op, but this variant has no mask check, and its
scaled header arithmetic derives the header at 1048680 - 64 = 1048616 —
exactly S, the block already at the head of the free list — and inserts
it a second time. -/
def mp_c10_s1 : MemoryPool.State := (MemoryPool.allocate MemoryPool.init 24).2

def mp_c10_s2 : MemoryPool.State := MemoryPool.deallocate mp_c10_s1 1048680

/-- C10: the free list of `src/MemoryPool.h` is not kept well-formed by
every public operation.  Before the call the list is well-formed (head
S = 1048616, `S.prev = S.next = null`); the single `deallocate(1048680)`
call — a provenance-invalid pointer, which the spec requires deallocate
to survive without corrupting state, and which this variant cannot
reject, having no mask — re-inserts the already-listed head block:
`Insert_block` sets `S.next = free_block_head_ = S` and then
`free_block_head_->prev = S`, so afterwards the head block's `prev` is
1048616, not null (the list is a self-loop).  Every memory word this
trace reads was previously written by the pool itself. -/
theorem C10_free_list_corrupted :
    (MemoryPool.allocate MemoryPool.init 24).1 = some 1048592 ∧
    mp_c10_s1.free_block_head = 1048616 ∧
    rword mp_c10_s1.mem (1048616 + 8) = 0 ∧
    rword mp_c10_s1.mem (1048616 + 16) = 0 ∧
    mp_c10_s2.free_block_head = 1048616 ∧
    rword mp_c10_s2.mem (1048616 + 8) = 1048616 ∧
    (1048616 : Nat) ≠ 0 := by decide

/-! ### Claim C6 -/

/-- A pool owning two chunks, reached by `allocate(24); allocate(4048);
allocate(24); allocate(24)`: the second call splits off a size-0 block,
the third consumes it (emptying the free list), and the fourth must
acquire a second chunk (base 2101248, whose header word points at the
first chunk 1048576). -/
def mp_c6_state : MemoryPool.State :=
  (MemoryPool.allocate
    (MemoryPool.allocate
      (MemoryPool.allocate
        (MemoryPool.allocate MemoryPool.init 24).2 4048).2 24).2 24).2

/-- C6: the destructor of `src/MemoryPool.h` does not release each chunk
exactly once.  Its loop steps with `p = *chunk_head_` — re-reading the
already-released first list node instead of advancing through `p` — so on
the two-chunk pool `mp_c6_state` it releases 2101248 once and then
releases 1048576 over and over: within fuel 5 the release list is
`[2101248, 1048576, 1048576, 1048576, 1048576]` (1048576 released four
times), and the walk never reaches a null pointer — for every fuel `n`
the loop performs `n` releases, i.e. it does not terminate. -/
theorem C6_destructor_releases_chunk_twice :
    mp_c6_state.chunk_head = 2101248 ∧
    rword mp_c6_state.mem 2101248 = 1048576 ∧
    MemoryPool.dtorReleases mp_c6_state.mem 2101248 2101248 5
      = [2101248, 1048576, 1048576, 1048576, 1048576] ∧
    (MemoryPool.dtorReleases mp_c6_state.mem 2101248 2101248 5).count 1048576
      = 4 ∧
    (MemoryPool.dtorReleases mp_c6_state.mem 2101248 2101248 80).length = 80 := by
  decide
